import Mathlib

/-!
# Ops-Copilot tail-ingest pipeline: shallow embedding and verification

This file embeds, in Lean 4, the parts of the Ops-Copilot repository that its
design specification makes claims about:

* `tools/desensitizer.py` — the masking engine (`Desensitizer`),
* `tools/tail_ingest.py`  — syslog line parsing, classification, fingerprints,
  the HTTP retry helper and the offset-tracking loop,
* `app/ingest/syslog.py`  — the H3C syslog parser with order-normalised
  MAC-flapping fingerprints,
* `app/store.py`          — the in-memory aggregation store.

Python byte strings are embedded as `List Nat` (each element < 256), machine
words as `Nat` reduced mod `2^32` at every operation, and Python `dict`s as
association lists.  The cryptographic hashes used by the code
(`hashlib.sha1`, `hmac`/`hashlib.sha256`) are implemented executably below so
that fingerprints and masking tokens evaluate to their real values.
-/

set_option maxRecDepth 100000
set_option maxHeartbeats 4000000

deriving instance DecidableEq for Except

namespace OpsCopilot

/-! ## 32-bit word arithmetic over `Nat` -/

/-- Reduce a natural number to a 32-bit word. -/
def w32 (n : Nat) : Nat := n % 4294967296

/-- 32-bit wrapping addition. -/
def wadd (a b : Nat) : Nat := (a + b) % 4294967296

/-- Right rotation of a 32-bit word by `n` (0 < n < 32). -/
def rotr32 (x n : Nat) : Nat := w32 ((x >>> n) ||| (x <<< (32 - n)))

/-- Left rotation of a 32-bit word by `n` (0 < n < 32). -/
def rotl32 (x n : Nat) : Nat := w32 ((x <<< n) ||| (x >>> (32 - n)))

/-- Bitwise complement of a 32-bit word. -/
def wnot (x : Nat) : Nat := x ^^^ 4294967295

/-! ## Byte-level helpers -/

/-- Big-endian 4-byte serialisation of a 32-bit word. -/
def be32 (x : Nat) : List Nat :=
  [(x >>> 24) % 256, (x >>> 16) % 256, (x >>> 8) % 256, x % 256]

/-- Big-endian 8-byte serialisation of a 64-bit length field. -/
def be64 (x : Nat) : List Nat :=
  [(x >>> 56) % 256, (x >>> 48) % 256, (x >>> 40) % 256, (x >>> 32) % 256,
   (x >>> 24) % 256, (x >>> 16) % 256, (x >>> 8) % 256, x % 256]

/-- Group a byte list into big-endian 32-bit words (length a multiple of 4). -/
def bytesToWordsBE : List Nat → List Nat
  | b0 :: b1 :: b2 :: b3 :: rest =>
      (b0 * 16777216 + b1 * 65536 + b2 * 256 + b3) :: bytesToWordsBE rest
  | _ => []

/-- MD-style padding shared by SHA-1 and SHA-256 (FIPS 180-4 §5.1.1):
append `0x80`, zero bytes to 56 mod 64, then the 64-bit big-endian bit
length. -/
def shaPad (msg : List Nat) : List Nat :=
  msg ++ [128] ++ List.replicate ((119 - msg.length % 64) % 64) 0
      ++ be64 (msg.length * 8)

/-- Split a word list into 16-word blocks (structural recursion on a fuel
bound so the definition reduces inside the kernel). -/
def chunksGo : Nat → List Nat → List (List Nat)
  | 0, _ => []
  | _, [] => []
  | fuel + 1, l => l.take 16 :: chunksGo fuel (l.drop 16)

/-- Split a word list into 16-word blocks. -/
def chunks16 (l : List Nat) : List (List Nat) := chunksGo l.length l

/-- Lowercase hex digit for a nibble. -/
def hexChar (n : Nat) : Char :=
  if n < 10 then Char.ofNat (48 + n) else Char.ofNat (87 + n)

/-- Lowercase hex encoding of a byte list (Python `hexdigest()`). -/
def bytesToHex (bs : List Nat) : String :=
  String.mk (bs.foldr (fun b acc => hexChar (b / 16) :: hexChar (b % 16) :: acc) [])

/-- UTF-8 encoding of one character (Python `str.encode("utf-8")`). -/
def utf8Char (c : Char) : List Nat :=
  let n := c.toNat
  if n < 128 then [n]
  else if n < 2048 then [192 + n / 64, 128 + n % 64]
  else if n < 65536 then [224 + n / 4096, 128 + (n / 64) % 64, 128 + n % 64]
  else [240 + n / 262144, 128 + (n / 4096) % 64, 128 + (n / 64) % 64, 128 + n % 64]

/-- UTF-8 encoding of a string. -/
def utf8 (s : String) : List Nat :=
  s.data.foldr (fun c acc => utf8Char c ++ acc) []

/-! ## SHA-256 (FIPS 180-4), used by `tools/desensitizer.py` via `hmac` -/

/-- The 64 SHA-256 round constants (FIPS 180-4 §4.2.2). -/
def sha256K : List Nat :=
  [0x428A2F98, 0x71374491, 0xB5C0FBCF, 0xE9B5DBA5,
   0x3956C25B, 0x59F111F1, 0x923F82A4, 0xAB1C5ED5,
   0xD807AA98, 0x12835B01, 0x243185BE, 0x550C7DC3,
   0x72BE5D74, 0x80DEB1FE, 0x9BDC06A7, 0xC19BF174,
   0xE49B69C1, 0xEFBE4786, 0x0FC19DC6, 0x240CA1CC,
   0x2DE92C6F, 0x4A7484AA, 0x5CB0A9DC, 0x76F988DA,
   0x983E5152, 0xA831C66D, 0xB00327C8, 0xBF597FC7,
   0xC6E00BF3, 0xD5A79147, 0x06CA6351, 0x14292967,
   0x27B70A85, 0x2E1B2138, 0x4D2C6DFC, 0x53380D13,
   0x650A7354, 0x766A0ABB, 0x81C2C92E, 0x92722C85,
   0xA2BFE8A1, 0xA81A664B, 0xC24B8B70, 0xC76C51A3,
   0xD192E819, 0xD6990624, 0xF40E3585, 0x106AA070,
   0x19A4C116, 0x1E376C08, 0x2748774C, 0x34B0BCB5,
   0x391C0CB3, 0x4ED8AA4A, 0x5B9CCA4F, 0x682E6FF3,
   0x748F82EE, 0x78A5636F, 0x84C87814, 0x8CC70208,
   0x90BEFFFA, 0xA4506CEB, 0xBEF9A3F7, 0xC67178F2]

/-- The eight SHA-256 initial hash values (FIPS 180-4 §5.3.3). -/
def sha256IV : List Nat :=
  [0x6A09E667, 0xBB67AE85, 0x3C6EF372, 0xA54FF53A,
   0x510E527F, 0x9B05688C, 0x1F83D9AB, 0x5BE0CD19]

/-- SHA-256 `Ch`. -/
def sha256Ch (x y z : Nat) : Nat := (x &&& y) ^^^ (wnot x &&& z)

/-- SHA-256 `Maj`. -/
def sha256Maj (x y z : Nat) : Nat := (x &&& y) ^^^ (x &&& z) ^^^ (y &&& z)

/-- SHA-256 `Σ₀`. -/
def bsig0 (x : Nat) : Nat := rotr32 x 2 ^^^ rotr32 x 13 ^^^ rotr32 x 22

/-- SHA-256 `Σ₁`. -/
def bsig1 (x : Nat) : Nat := rotr32 x 6 ^^^ rotr32 x 11 ^^^ rotr32 x 25

/-- SHA-256 `σ₀`. -/
def ssig0 (x : Nat) : Nat := rotr32 x 7 ^^^ rotr32 x 18 ^^^ (x >>> 3)

/-- SHA-256 `σ₁`. -/
def ssig1 (x : Nat) : Nat := rotr32 x 17 ^^^ rotr32 x 19 ^^^ (x >>> 10)

/-- Extend a message schedule to 64 words (appends `fuel` further words). -/
def sha256Extend (w : List Nat) : Nat → List Nat
  | 0 => w
  | fuel + 1 =>
      let n := w.length
      let nw := wadd (wadd (ssig1 (w.getD (n - 2) 0)) (w.getD (n - 7) 0))
                     (wadd (ssig0 (w.getD (n - 15) 0)) (w.getD (n - 16) 0))
      sha256Extend (w ++ [nw]) fuel

/-- One SHA-256 round on the state `[a,b,c,d,e,f,g,h]`. -/
def sha256Round (st : List Nat) (ki wi : Nat) : List Nat :=
  match st with
  | [a, b, c, d, e, f, g, h] =>
      let t1 := wadd (wadd (wadd (wadd h (bsig1 e)) (sha256Ch e f g)) ki) wi
      let t2 := wadd (bsig0 a) (sha256Maj a b c)
      [wadd t1 t2, a, b, c, wadd d t1, e, f, g]
  | _ => st

/-- Run the 64 SHA-256 rounds over the zipped constants/schedule. -/
def sha256Rounds (st : List Nat) : List (Nat × Nat) → List Nat
  | [] => st
  | (ki, wi) :: rest => sha256Rounds (sha256Round st ki wi) rest

/-- Process one 16-word block. -/
def sha256Compress (st block : List Nat) : List Nat :=
  let w := sha256Extend block 48
  let st2 := sha256Rounds st (sha256K.zip w)
  (st.zip st2).map (fun p => wadd p.1 p.2)

/-- SHA-256 of a byte string, as 32 digest bytes. -/
def sha256Bytes (msg : List Nat) : List Nat :=
  let st := (chunks16 (bytesToWordsBE (shaPad msg))).foldl sha256Compress sha256IV
  st.foldr (fun x acc => be32 x ++ acc) []

/-- Zero-pad (or hash-then-pad) an HMAC key to the 64-byte block
(Python `hmac.new` with `sha256`). -/
def hmacKey0 (key : List Nat) : List Nat :=
  let k := if key.length > 64 then sha256Bytes key else key
  k ++ List.replicate (64 - k.length) 0

/-- HMAC-SHA256 (FIPS 198-1) digest bytes of `msg` under `key`. -/
def hmacSha256 (key msg : List Nat) : List Nat :=
  let k0 := hmacKey0 key
  sha256Bytes ((k0.map (· ^^^ 92)) ++ sha256Bytes ((k0.map (· ^^^ 54)) ++ msg))

/-! ## SHA-1 (FIPS 180-4), used by `stable_fingerprint` in
`tools/tail_ingest.py` via `hashlib.sha1` -/

/-- The five SHA-1 initial hash values. -/
def sha1IV : List Nat :=
  [0x67452301, 0xEFCDAB89, 0x98BADCFE, 0x10325476, 0xC3D2E1F0]

/-- SHA-1 round function `f_t`. -/
def sha1F (t b c d : Nat) : Nat :=
  if t < 20 then (b &&& c) ||| (wnot b &&& d)
  else if t < 40 then b ^^^ c ^^^ d
  else if t < 60 then (b &&& c) ||| (b &&& d) ||| (c &&& d)
  else b ^^^ c ^^^ d

/-- SHA-1 round constant `K_t`. -/
def sha1K (t : Nat) : Nat :=
  if t < 20 then 0x5A827999
  else if t < 40 then 0x6ED9EBA1
  else if t < 60 then 0x8F1BBCDC
  else 0xCA62C1D6

/-- Extend a 16-word block to the 80-word SHA-1 schedule. -/
def sha1Extend (w : List Nat) : Nat → List Nat
  | 0 => w
  | fuel + 1 =>
      let n := w.length
      let nw := rotl32 (w.getD (n - 3) 0 ^^^ w.getD (n - 8) 0 ^^^
                        w.getD (n - 14) 0 ^^^ w.getD (n - 16) 0) 1
      sha1Extend (w ++ [nw]) fuel

/-- Run SHA-1 rounds `t, t+1, …` over the remaining schedule words. -/
def sha1Rounds (t : Nat) (st : List Nat) : List Nat → List Nat
  | [] => st
  | wi :: rest =>
      match st with
      | [a, b, c, d, e] =>
          let tmp := wadd (wadd (wadd (wadd (rotl32 a 5) (sha1F t b c d)) e)
                          (sha1K t)) wi
          sha1Rounds (t + 1) [tmp, a, rotl32 b 30, c, d] rest
      | _ => st

/-- Process one 16-word SHA-1 block. -/
def sha1Compress (st block : List Nat) : List Nat :=
  let w := sha1Extend block 64
  let st2 := sha1Rounds 0 st w
  (st.zip st2).map (fun p => wadd p.1 p.2)

/-- SHA-1 of a byte string, as 20 digest bytes. -/
def sha1Bytes (msg : List Nat) : List Nat :=
  let st := (chunks16 (bytesToWordsBE (shaPad msg))).foldl sha1Compress sha1IV
  st.foldr (fun x acc => be32 x ++ acc) []

/-! ## Character classes of the Python `re` patterns

The source operates on log lines that are ASCII; we embed the ASCII meaning
of `\w`, `\d`, `\s` (Python matches a wider Unicode set, which no claim
exercises). -/

/-- Python `\w` (word character), ASCII fragment: `[A-Za-z0-9_]`. -/
def isWordChar (c : Char) : Bool := c.isAlphanum || c = '_'

/-- Python `\s` (whitespace), ASCII fragment. -/
def isSpaceChar (c : Char) : Bool :=
  c = ' ' || c = '\t' || c = '\n' || c = '\r' || c = '\x0b' || c = '\x0c'

/-- Hex digit, class `[0-9A-Fa-f]`. -/
def isHexDigit (c : Char) : Bool :=
  c.isDigit || ('a' ≤ c && c ≤ 'f') || ('A' ≤ c && c ≤ 'F')

/-- Length of the leading run of decimal digits. -/
def countDigits : List Char → Nat
  | c :: cs => if c.isDigit then countDigits cs + 1 else 0
  | [] => 0

/-! ## `tools/desensitizer.py` — the masking engine -/

/-- `DesensitizeConfig` (desensitizer.py lines 13-18). -/
structure DesensitizeConfig where
  secret_key : String
  reversible : Bool := false
  mapping_path : String := "data/desensitize_map.json"
  keep_private_ranges : Bool := false

/-- The mutable dictionaries of a `Desensitizer` instance (`self._map`,
`self._rev`); Python dicts are embedded as insertion-ordered association
lists.  A fresh instance whose `_load_map` found no mapping file has both
empty. -/
structure DState where
  map : List (String × String) := []
  rev : List (String × String) := []
  deriving DecidableEq

/-- Outcome model for the filesystem operations of `_save_map`:
whether `os.makedirs(os.path.dirname(mapping_path), exist_ok=True)` raises,
and whether the `open`/`json.dump` inside the `try` block raises. -/
structure FsModel where
  mkdirFails : Bool := false
  writeFails : Bool := false

/-- Python dict lookup. -/
def dictFind (m : List (String × String)) (k : String) : Option String :=
  (m.find? (fun p => p.1 = k)).map (·.2)

/-- Python dict assignment for a key known to be absent (append, preserving
insertion order). -/
def dictAdd (m : List (String × String)) (k v : String) : List (String × String) :=
  m ++ [(k, v)]

/-- `Desensitizer._h` (lines 44-49): first 10 hex characters of
`hmac.new(secret_key, s, sha256).hexdigest()`. -/
def hashToken (cfg : DesensitizeConfig) (s : String) : String :=
  (bytesToHex (hmacSha256 (utf8 cfg.secret_key) (utf8 s))).take 10

/-- `Desensitizer._save_map` (lines 113-124).  `os.makedirs` sits OUTSIDE
the `try`, so its failure propagates as an exception; the `open`/`json.dump`
failure inside the `try` is swallowed by `except: pass`. -/
def save_map (fs : FsModel) : Except Unit Unit :=
  if fs.mkdirFails then .error () else .ok ()

/-- `Desensitizer._map_value` (lines 51-60): look up an existing token, or
create `<pfx:hash>`, record it (and the reverse entry when reversible), and
persist the mapping. -/
def map_value (cfg : DesensitizeConfig) (fs : FsModel) (st : DState)
    (raw pfx : String) : Except Unit (String × DState) :=
  match dictFind st.map raw with
  | some t => .ok (t, st)
  | none =>
      let token := "<" ++ pfx ++ ":" ++ hashToken cfg raw ++ ">"
      let st1 := { st with map := dictAdd st.map raw token }
      let st2 := if cfg.reversible then { st1 with rev := dictAdd st1.rev token raw } else st1
      match save_map fs with
      | .error e => .error e
      | .ok _ => .ok (token, st2)

/-- Python `s.startswith(pre)`: code-point prefix test. -/
def pyStartsWith (s pre : String) : Bool := pre.data.isPrefixOf s.data

/-- `Desensitizer._is_private_ip` (lines 93-98). -/
def is_private_ip (ip : String) : Bool :=
  pyStartsWith ip "10." || pyStartsWith ip "192.168." || pyStartsWith ip "172."

/-! ### The IPv4 regex `\b\d{1,3}(?:\.\d{1,3}){3}\b`

For this pattern Python's leftmost-greedy matching is deterministic: each of
the four digit runs must be 1-3 digits long and be followed by `.` (resp. a
non-word character or the end for the last one); a longer digit run cannot be
shortened because the giving-up digit would then have to match `\.` or `\b`
before a digit, which fails.  `ipSegsMatch k` matches `\d{1,3}` followed by
`k` further groups `\.\d{1,3}` and the trailing `\b`. -/
def ipSegsMatch : Nat → List Char → Option (List Char × List Char)
  | 0, cs =>
      let r := countDigits cs
      if r < 1 || r > 3 then none
      else
        match cs.drop r with
        | [] => some (cs.take r, [])
        | c :: rest => if isWordChar c then none else some (cs.take r, c :: rest)
  | k2 + 1, cs =>
      let r := countDigits cs
      if r < 1 || r > 3 then none
      else
        match cs.drop r with
        | '.' :: rest2 =>
            (ipSegsMatch k2 rest2).map (fun p => (cs.take r ++ '.' :: p.1, p.2))
        | _ => none

/-- Match of the full IPv4 pattern at the current position (the leading `\b`
is checked by the scanner via the preceding character). -/
def matchIPv4At (cs : List Char) : Option (List Char × List Char) :=
  ipSegsMatch 3 cs

/-- The inner `repl` function of `_mask_ip` (lines 63-67): keep the matched
IP verbatim when `keep_private_ranges` exempts it, else replace it with its
`_map_value` token. -/
def ipRepl (cfg : DesensitizeConfig) (fs : FsModel) (st : DState)
    (ip : String) : Except Unit (String × DState) :=
  if cfg.keep_private_ranges && is_private_ip ip then .ok (ip, st)
  else map_value cfg fs st ip "IP"

/-- Scanner for `re.sub(ipv4Pattern, repl, s)` inside `_mask_ip`
(lines 62-69): leftmost non-overlapping matches, each replaced by `ipRepl`.
`prevW` tracks whether the previous character of the original string is a
word character (for `\b`); `fuel` only bounds the recursion and is set to
more than the string length, so the `0` case is never reached. -/
def maskIpGo (cfg : DesensitizeConfig) (fs : FsModel) :
    Nat → DState → Bool → List Char → Except Unit (List Char × DState)
  | 0, st, _, cs => .ok (cs, st)
  | fuel + 1, st, prevW, cs =>
      match cs with
      | [] => .ok ([], st)
      | c :: rest =>
          match (if prevW then none else matchIPv4At cs) with
          | some (seg, after) =>
              match ipRepl cfg fs st (String.mk seg) with
              | .error e => .error e
              | .ok (rep, st1) =>
                  (maskIpGo cfg fs fuel st1 true after).map
                    (fun p => (rep.data ++ p.1, p.2))
          | none =>
              (maskIpGo cfg fs fuel st (isWordChar c) rest).map
                (fun p => (c :: p.1, p.2))

/-- `Desensitizer._mask_ip` (lines 62-69). -/
def mask_ip (cfg : DesensitizeConfig) (fs : FsModel) (st : DState)
    (cs : List Char) : Except Unit (List Char × DState) :=
  maskIpGo cfg fs (cs.length + 1) st false cs

/-! ### The MAC regex `\b([0-9A-Fa-f]{2}[:-]){5}[0-9A-Fa-f]{2}\b` -/

/-- Match `k` groups `[0-9A-Fa-f]{2}[:-]` followed by `[0-9A-Fa-f]{2}\b`. -/
def macPairsMatch : Nat → List Char → Option (List Char × List Char)
  | 0, h1 :: h2 :: rest =>
      if isHexDigit h1 && isHexDigit h2 then
        match rest with
        | [] => some ([h1, h2], [])
        | c :: _ => if isWordChar c then none else some ([h1, h2], rest)
      else none
  | k + 1, h1 :: h2 :: sep :: rest =>
      if isHexDigit h1 && isHexDigit h2 && (sep = ':' || sep = '-') then
        (macPairsMatch k rest).map (fun p => (h1 :: h2 :: sep :: p.1, p.2))
      else none
  | _, _ => none

/-- Scanner for `re.sub` of the MAC pattern (`_mask_mac`, lines 71-76). -/
def maskMacGo (cfg : DesensitizeConfig) (fs : FsModel) :
    Nat → DState → Bool → List Char → Except Unit (List Char × DState)
  | 0, st, _, cs => .ok (cs, st)
  | fuel + 1, st, prevW, cs =>
      match cs with
      | [] => .ok ([], st)
      | c :: rest =>
          match (if prevW then none else macPairsMatch 5 cs) with
          | some (seg, after) =>
              match map_value cfg fs st (String.mk seg) "MAC" with
              | .error e => .error e
              | .ok (tok, st1) =>
                  (maskMacGo cfg fs fuel st1 true after).map
                    (fun p => (tok.data ++ p.1, p.2))
          | none =>
              (maskMacGo cfg fs fuel st (isWordChar c) rest).map
                (fun p => (c :: p.1, p.2))

/-- `Desensitizer._mask_mac` (lines 71-76). -/
def mask_mac (cfg : DesensitizeConfig) (fs : FsModel) (st : DState)
    (cs : List Char) : Except Unit (List Char × DState) :=
  maskMacGo cfg fs (cs.length + 1) st false cs

/-! ### The secret regexes `(password\s*=\s*)(\S+)` (and `token`, `secret`),
`re.IGNORECASE` -/

/-- Case-insensitive literal match, returning the original text matched and
the remainder. -/
def matchCI : List Char → List Char → Option (List Char × List Char)
  | [], cs => some ([], cs)
  | _ :: _, [] => none
  | n :: ns, c :: cs =>
      if n.toLower = c.toLower then (matchCI ns cs).map (fun p => (c :: p.1, p.2))
      else none

/-- Match `(key\s*=\s*)(\S+)` at the current position; returns
(group 1 text, group 2 text, remainder).  `\s*` runs are maximal and cannot
backtrack usefully (a given-back space never matches `=` or `\S`). -/
def matchKeyEq (key : List Char) (cs : List Char) :
    Option (List Char × List Char × List Char) :=
  match matchCI key cs with
  | none => none
  | some (kchars, rest1) =>
      let sp1 := rest1.takeWhile isSpaceChar
      match rest1.dropWhile isSpaceChar with
      | '=' :: rest2 =>
          let sp2 := rest2.takeWhile isSpaceChar
          let rest3 := rest2.dropWhile isSpaceChar
          let val := rest3.takeWhile (fun c => !isSpaceChar c)
          if val = [] then none
          else some (kchars ++ sp1 ++ '=' :: sp2, val, rest3.drop val.length)
      | _ => none

/-- Scanner for one `re.sub` pass of `_mask_secret` (lines 78-91): the
replacement is group 1 unchanged followed by the token for group 2. -/
def maskSecretGo (cfg : DesensitizeConfig) (fs : FsModel) (key : List Char) :
    Nat → DState → List Char → Except Unit (List Char × DState)
  | 0, st, cs => .ok (cs, st)
  | fuel + 1, st, cs =>
      match cs with
      | [] => .ok ([], st)
      | c :: rest =>
          match matchKeyEq key cs with
          | some (g1, g2, after) =>
              match map_value cfg fs st (String.mk g2) "SECRET" with
              | .error e => .error e
              | .ok (tok, st1) =>
                  (maskSecretGo cfg fs key fuel st1 after).map
                    (fun p => (g1 ++ tok.data ++ p.1, p.2))
          | none =>
              (maskSecretGo cfg fs key fuel st rest).map
                (fun p => (c :: p.1, p.2))

/-- `Desensitizer._mask_secret` (lines 78-91): the three patterns are applied
as successive `re.sub` passes. -/
def mask_secret (cfg : DesensitizeConfig) (fs : FsModel) (st : DState)
    (cs : List Char) : Except Unit (List Char × DState) :=
  match maskSecretGo cfg fs "password".data (cs.length + 1) st cs with
  | .error e => .error e
  | .ok (s1, st1) =>
      match maskSecretGo cfg fs "token".data (s1.length + 1) st1 s1 with
      | .error e => .error e
      | .ok (s2, st2) => maskSecretGo cfg fs "secret".data (s2.length + 1) st2 s2

/-- `Desensitizer.desensitize_line` (lines 31-39): applies IP, MAC and
secret masking in order and returns the masked line together with the `meta`
dict — which the code initialises to `{}` and never populates. -/
def desensitize_line (cfg : DesensitizeConfig) (fs : FsModel) (st : DState)
    (line : String) : Except Unit (String × DState × List (String × Nat)) :=
  match mask_ip cfg fs st line.data with
  | .error e => .error e
  | .ok (s1, st1) =>
      match mask_mac cfg fs st1 s1 with
      | .error e => .error e
      | .ok (s2, st2) =>
          match mask_secret cfg fs st2 s2 with
          | .error e => .error e
          | .ok (s3, st3) => .ok (String.mk s3, st3, [])

/-- A sample configuration used in concrete evaluations. -/
def sampleCfg : DesensitizeConfig :=
  { secret_key := "topsecret" }

/-- The sample configuration with reversible mapping enabled. -/
def sampleCfgRev : DesensitizeConfig :=
  { secret_key := "topsecret", reversible := true }

/-- The sample configuration with the private-range exemption enabled. -/
def keepCfg : DesensitizeConfig :=
  { secret_key := "topsecret", keep_private_ranges := true }

/-- The token component of a `_map_value` outcome. -/
def tokenOf (r : Except Unit (String × DState)) : Option String :=
  match r with
  | .ok p => some p.1
  | .error _ => none

/-! ## `tools/tail_ingest.py` — parsing, classification, fingerprints -/

/-- Python `s.rstrip("\n")`. -/
def rstripNewline (s : String) : String :=
  String.mk (s.data.reverse.dropWhile (· = '\n')).reverse

/-- Python `s.strip()` (whitespace from both ends). -/
def pyStrip (s : String) : String :=
  String.mk ((s.data.dropWhile isSpaceChar).reverse.dropWhile isSpaceChar).reverse

/-- Python `s.lower()` (character-wise). -/
def pyLower (s : String) : String := String.mk (s.data.map Char.toLower)

/-- Bool substring test (Python `needle in hay`). -/
def hasSubstr (needle : List Char) : List Char → Bool
  | [] => needle.isPrefixOf []
  | c :: rest => needle.isPrefixOf (c :: rest) || hasSubstr needle rest

/-- Split at the first occurrence of `sep` (Python `s.split(sep, 1)`),
returning the parts before and after it, or `none` when absent. -/
def splitFirst (sep : List Char) : List Char → Option (List Char × List Char)
  | [] => none
  | c :: rest =>
      if sep.isPrefixOf (c :: rest) then some ([], (c :: rest).drop sep.length)
      else (splitFirst sep rest).map (fun p => (c :: p.1, p.2))

/-- Python `s.split()`: whitespace-separated words, empties discarded
(fuel-bounded structural recursion; the fuel exceeds the length). -/
def pyWordsGo : Nat → List Char → List (List Char)
  | 0, _ => []
  | _, [] => []
  | fuel + 1, c :: rest =>
      if isSpaceChar c then pyWordsGo fuel rest
      else
        let w := (c :: rest).takeWhile (fun x => !isSpaceChar x)
        w :: pyWordsGo fuel ((c :: rest).drop w.length)

/-- Python `s.split()`. -/
def pyWords (cs : List Char) : List (List Char) := pyWordsGo (cs.length + 1) cs

/-- `stable_fingerprint` (tail_ingest.py lines 199-201):
`hashlib.sha1(s.encode()).hexdigest()[:16]`. -/
def stable_fingerprint (s : String) : String :=
  (bytesToHex (sha1Bytes (utf8 s))).take 16

/-! ### `LINE_RE`:
`^(?P<mon>\w{3})\s+(?P<day>\d{1,2})\s+(?P<hms>\d{2}:\d{2}:\d{2})\s+(?P<rest>.+)$`

Matching is deterministic: the fixed-width groups cannot backtrack, and a
digit given back by `\d{1,2}` would have to match `\s+`, which fails. -/

/-- Consume `\s+` (at least one whitespace character), maximal munch. -/
def dropSpaces1 (cs : List Char) : Option (List Char) :=
  match cs with
  | c :: rest => if isSpaceChar c then some (rest.dropWhile isSpaceChar) else none
  | [] => none

/-- Match `LINE_RE` against a whole line, returning the `rest` group. -/
def matchLineRE (cs : List Char) : Option (List Char) :=
  match cs with
  | m1 :: m2 :: m3 :: r0 =>
      if isWordChar m1 && isWordChar m2 && isWordChar m3 then
        match dropSpaces1 r0 with
        | none => none
        | some r1 =>
            let d := countDigits r1
            if d < 1 || d > 2 then none
            else
              match dropSpaces1 (r1.drop d) with
              | none => none
              | some r2 =>
                  match r2 with
                  | h1 :: h2 :: ':' :: h3 :: h4 :: ':' :: h5 :: h6 :: r3 =>
                      if h1.isDigit && h2.isDigit && h3.isDigit && h4.isDigit
                          && h5.isDigit && h6.isDigit then
                        match dropSpaces1 r3 with
                        | none => none
                        | some r4 =>
                            -- `(?P<rest>.+)$`: nonempty and `.` never matches
                            -- a newline, so the group runs to the end only
                            -- when no newline remains.
                            if r4 = [] || r4.contains '\n' then none
                            else some r4
                      else none
                  | _ => none
      else none
  | _ => none

/-- `parse_syslog_line` (tail_ingest.py lines 164-187).  When `": "` occurs
in `rest`, the code takes `left.split()[-1]` as host; on the (claim-irrelevant)
inputs where `left` has no words Python would raise `IndexError`, which we
record by falling back to the initial value `"unknown"`. -/
def parse_syslog_line (line : String) : String × String × String :=
  let l := rstripNewline line
  match matchLineRE l.data with
  | none => ("unknown", "rsyslog", l)
  | some restChars =>
      match splitFirst [':', ' '] restChars with
      | none => ("unknown", "syslog", String.mk restChars)
      | some (left, right) =>
          let host := match (pyWords left).getLast? with
                      | some w => String.mk w
                      | none => "unknown"
          (host, "syslog", pyStrip (String.mk right))

/-! ### `MAC_FLAP_RE` (tail_ingest.py lines 67-70):
`MAC[_\s]?FLAPPING.*?MAC address\s+(?P<mac>[0-9a-fA-F\-\.]+)\s+has been
moving between port\s+(?P<p1>\S+)\s+and\s+port\s+(?P<p2>\S+)`, IGNORECASE.

Each `\S+`/char-class run is maximal and cannot usefully backtrack (a
given-back character would have to match `\s`), so only the lazy gap `.*?`
and the optional `[_\s]?` branch; the latter is unambiguous because `F`
is not in `[_\s]`. -/

/-- Character class `[0-9a-fA-F\-\.]` of the `mac` group. -/
def isMacChar (c : Char) : Bool := isHexDigit c || c = '-' || c = '.'

/-- Head `MAC[_\s]?FLAPPING` (case-insensitive), returning the remainder. -/
def macFlapHead (cs : List Char) : Option (List Char) :=
  match matchCI "MAC".data cs with
  | none => none
  | some (_, r1) =>
      let zeroWidth := (matchCI "FLAPPING".data r1).map (·.2)
      match r1 with
      | c :: r2 =>
          if c = '_' || isSpaceChar c then
            match matchCI "FLAPPING".data r2 with
            | some p => some p.2
            | none => zeroWidth
          else zeroWidth
      | [] => zeroWidth

/-- Tail of `MAC_FLAP_RE` from the `MAC address` literal on, returning the
`mac`, `p1`, `p2` groups. -/
def macFlapTail (cs : List Char) : Option (String × String × String) :=
  match matchCI "MAC address".data cs with
  | none => none
  | some (_, r1) =>
      match dropSpaces1 r1 with
      | none => none
      | some r2 =>
          let mac := r2.takeWhile isMacChar
          if mac = [] then none
          else
            match dropSpaces1 (r2.drop mac.length) with
            | none => none
            | some r3 =>
                match matchCI "has been moving between port".data r3 with
                | none => none
                | some (_, r4) =>
                    match dropSpaces1 r4 with
                    | none => none
                    | some r5 =>
                        let p1 := r5.takeWhile (fun c => !isSpaceChar c)
                        if p1 = [] then none
                        else
                          match dropSpaces1 (r5.drop p1.length) with
                          | none => none
                          | some r6 =>
                              match matchCI "and".data r6 with
                              | none => none
                              | some (_, r7) =>
                                  match dropSpaces1 r7 with
                                  | none => none
                                  | some r8 =>
                                      match matchCI "port".data r8 with
                                      | none => none
                                      | some (_, r9) =>
                                          match dropSpaces1 r9 with
                                          | none => none
                                          | some r10 =>
                                              let p2 := r10.takeWhile (fun c => !isSpaceChar c)
                                              if p2 = [] then none
                                              else some (String.mk mac, String.mk p1, String.mk p2)

/-- Lazy gap `.*?` scan: try the tail at each position, left to right; the
gap cannot consume a newline. -/
def macFlapGapScan : Nat → List Char → Option (String × String × String)
  | 0, _ => none
  | fuel + 1, cs =>
      match macFlapTail cs with
      | some g => some g
      | none =>
          match cs with
          | [] => none
          | '\n' :: _ => none
          | _ :: rest => macFlapGapScan fuel rest

/-- `MAC_FLAP_RE.search`: try every start position, leftmost first. -/
def macFlapSearchGo : Nat → List Char → Option (String × String × String)
  | 0, _ => none
  | fuel + 1, cs =>
      match (match macFlapHead cs with
             | some afterHead => macFlapGapScan (afterHead.length + 1) afterHead
             | none => none) with
      | some g => some g
      | none =>
          match cs with
          | [] => none
          | _ :: rest => macFlapSearchGo fuel rest

/-- `MAC_FLAP_RE.search(s)` returning the groups `(mac, p1, p2)`. -/
def macFlapSearch (s : String) : Option (String × String × String) :=
  macFlapSearchGo (s.data.length + 1) s.data

/-! ### `LINK_RE` (tail_ingest.py lines 61-64):
`(?:LINK_UPDOWN).*?(?P<intf>(?:GigabitEthernet|Ten-GigabitEthernet|
XGigabitEthernet|Bridge-Aggregation)\S+)\s+link\s+(?P<state>up|down)`,
IGNORECASE. -/

/-- The interface-name alternation, alternatives tried in pattern order. -/
def intfAlt (cs : List Char) : Option (List Char × List Char) :=
  match matchCI "GigabitEthernet".data cs with
  | some p => some p
  | none =>
      match matchCI "Ten-GigabitEthernet".data cs with
      | some p => some p
      | none =>
          match matchCI "XGigabitEthernet".data cs with
          | some p => some p
          | none => matchCI "Bridge-Aggregation".data cs

/-- Tail of `LINK_RE` from the interface alternation on, returning the
`intf` and `state` groups (as matched, before `.lower()`). -/
def linkTail (cs : List Char) : Option (String × String) :=
  match intfAlt cs with
  | none => none
  | some (pre, r1) =>
      let sfx := r1.takeWhile (fun c => !isSpaceChar c)
      if sfx = [] then none
      else
        match dropSpaces1 (r1.drop sfx.length) with
        | none => none
        | some r2 =>
            match matchCI "link".data r2 with
            | none => none
            | some (_, r3) =>
                match dropSpaces1 r3 with
                | none => none
                | some r4 =>
                    match matchCI "up".data r4 with
                    | some (su, _) => some (String.mk (pre ++ sfx), String.mk su)
                    | none =>
                        match matchCI "down".data r4 with
                        | some (sd, _) => some (String.mk (pre ++ sfx), String.mk sd)
                        | none => none

/-- Lazy gap scan for `LINK_RE` (no newline inside the match). -/
def linkGapScan : Nat → List Char → Option (String × String)
  | 0, _ => none
  | fuel + 1, cs =>
      match linkTail cs with
      | some g => some g
      | none =>
          match cs with
          | [] => none
          | '\n' :: _ => none
          | _ :: rest => linkGapScan fuel rest

/-- `LINK_RE.search`: try every start position for the `LINK_UPDOWN`
literal, leftmost first. -/
def linkSearchGo : Nat → List Char → Option (String × String)
  | 0, _ => none
  | fuel + 1, cs =>
      match (match matchCI "LINK_UPDOWN".data cs with
             | some (_, afterHead) => linkGapScan (afterHead.length + 1) afterHead
             | none => none) with
      | some g => some g
      | none =>
          match cs with
          | [] => none
          | _ :: rest => linkSearchGo fuel rest

/-- `LINK_RE.search(s)` returning the groups `(intf, state)`. -/
def linkSearch (s : String) : Option (String × String) :=
  linkSearchGo (s.data.length + 1) s.data

/-- `classify_as_event` (tail_ingest.py lines 221-245). -/
def classify_as_event (msg_masked host_masked : String) :
    Option (String × String × String) :=
  if hasSubstr "%%10SHELL/".data msg_masked.data then none
  else
    match macFlapSearch msg_masked with
    | some (mac, p1, p2) =>
        some ("L2/MAC_FLAPPING",
              "MAC_FLAPPING " ++ mac ++ " " ++ p1 ++ "<->" ++ p2,
              stable_fingerprint ("MAC_FLAPPING|" ++ mac ++ "|" ++ p1 ++ "|" ++ p2))
    | none =>
        match linkSearch msg_masked with
        | some (intf, state0) =>
            let state := pyLower state0
            some ("SWITCH_LINK",
                  host_masked ++ " " ++ intf ++ " link " ++ state,
                  stable_fingerprint ("LINK|" ++ host_masked ++ "|" ++ intf ++ "|" ++ state))
        | none => none

/-- `mask_text` (tail_ingest.py lines 189-197): appends a newline, runs
`desensitize_line`, strips trailing newlines again; threading the
desensitizer state explicitly.  `des = none` models masking disabled. -/
def mask_text (des : Option DesensitizeConfig) (fs : FsModel) (st : DState)
    (text : String) : Except Unit (String × DState × List (String × Nat)) :=
  match des with
  | none => .ok (text, st, [])
  | some cfg =>
      match desensitize_line cfg fs st (text ++ "\n") with
      | .error e => .error e
      | .ok (m, st1, stats) => .ok (rstripNewline m, st1, stats)

/-- Insert-or-add for the `mask_stats` merge in `main`
(tail_ingest.py lines 368-371). -/
def bumpStat (m : List (String × Nat)) (k : String) (v : Nat) :
    List (String × Nat) :=
  if (m.find? (fun p => p.1 = k)).isSome then
    m.map (fun p => if p.1 = k then (p.1, p.2 + v) else p)
  else m ++ [(k, v)]

/-- The `mask_stats` merge loop of `main`. -/
def mergeStats (a b : List (String × Nat)) : List (String × Nat) :=
  (a ++ b).foldl (fun m p => bumpStat m p.1 p.2) []

/-- The per-line front of the ingest loop (tail_ingest.py lines 359-375):
parse, mask host and message (in that order, through the same desensitizer),
merge the masking stats, classify.  Returns the classification together with
the merged `mask_stats` that `main` places in the outbound record. -/
def ingest_classify (des : Option DesensitizeConfig) (fs : FsModel)
    (st : DState) (line : String) :
    Except Unit (Option (String × String × String) × List (String × Nat)) :=
  let parsed := parse_syslog_line line
  match mask_text des fs st parsed.1 with
  | .error e => .error e
  | .ok (host_masked, st1, host_stats) =>
      match mask_text des fs st1 parsed.2.2 with
      | .error e => .error e
      | .ok (msg_masked, _, msg_stats) =>
          .ok (classify_as_event msg_masked host_masked,
               mergeStats host_stats msg_stats)

/-! ## `app/ingest/syslog.py` — H3C parser with order-normalised
MAC-flapping fingerprints -/

/-- Case-sensitive literal match: the remainder after the literal. -/
def litMatch (lit cs : List Char) : Option (List Char) :=
  if lit.isPrefixOf cs then some (cs.drop lit.length) else none

/-- Match `_H3C_HDR` (syslog.py lines 7-17) against a whole (stripped)
message; returns the `module` and `body` groups.  The fixed-width groups and
maximal character-class runs make the match deterministic (a digit given
back by `\d{1,2}` would have to match `\s`, and `[^:]+` cannot release a
non-colon character to match `:`). -/
def matchH3C (cs : List Char) : Option (List Char × List Char) :=
  match cs with
  | '%' :: a :: b :: c :: r1 =>
      if a.isAlpha && b.isAlpha && c.isAlpha then
        match dropSpaces1 r1 with
        | none => none
        | some r2 =>
            let d := countDigits r2
            if d < 1 || d > 2 then none
            else
              match dropSpaces1 (r2.drop d) with
              | none => none
              | some r3 =>
                  match r3 with
                  | h1 :: h2 :: ':' :: h3 :: h4 :: ':' :: h5 :: h6 :: ':'
                      :: m1 :: m2 :: m3 :: r4 =>
                      if h1.isDigit && h2.isDigit && h3.isDigit && h4.isDigit
                          && h5.isDigit && h6.isDigit && m1.isDigit
                          && m2.isDigit && m3.isDigit then
                        match dropSpaces1 r4 with
                        | none => none
                        | some r5 =>
                            match r5 with
                            | y1 :: y2 :: y3 :: y4 :: r6 =>
                                if y1.isDigit && y2.isDigit && y3.isDigit
                                    && y4.isDigit then
                                  match dropSpaces1 r6 with
                                  | none => none
                                  | some r7 =>
                                      match litMatch "H3C".data r7 with
                                      | none => none
                                      | some r8 =>
                                          match dropSpaces1 r8 with
                                          | none => none
                                          | some r9 =>
                                              let module := r9.takeWhile (· ≠ ':')
                                              if module = [] then none
                                              else
                                                match r9.drop module.length with
                                                | ':' :: r10 =>
                                                    match dropSpaces1 r10 with
                                                    | none => none
                                                    | some r11 =>
                                                        -- `(?P<body>.*)$`
                                                        let body := r11.takeWhile (· ≠ '\n')
                                                        match r11.drop body.length with
                                                        | [] => some (module, body)
                                                        | ['\n'] => some (module, body)
                                                        | _ => none
                                                | _ => none
                                else none
                            | _ => none
                      else none
                  | _ => none
      else none
  | _ => none

/-- Character class `[\w/]` of the port groups of `_MAC_FLAP`. -/
def isPortChar (c : Char) : Bool := isWordChar c || c = '/'

/-- Match `_MAC_FLAP` (syslog.py lines 21-26) against a whole (stripped)
body: `MAC\s+address\s+(mac)\s+has\s+been\s+moving\s+between\s+port\s+
(p1)\s+and\s+port\s+(p2)\.?$` — case-sensitive, `re.X` so the literal
spaces in the pattern source are insignificant. -/
def matchMacFlapBody (cs : List Char) : Option (String × String × String) :=
  match litMatch "MAC".data cs with
  | none => none
  | some r1 =>
      match dropSpaces1 r1 with
      | none => none
      | some r2 =>
          match litMatch "address".data r2 with
          | none => none
          | some r3 =>
              match dropSpaces1 r3 with
              | none => none
              | some r4 =>
                  let mac := r4.takeWhile isMacChar
                  if mac = [] then none
                  else
                    match dropSpaces1 (r4.drop mac.length) with
                    | none => none
                    | some r5 =>
                        match litMatch "has".data r5 >>= dropSpaces1 with
                        | none => none
                        | some r6 =>
                            match litMatch "been".data r6 >>= dropSpaces1 with
                            | none => none
                            | some r7 =>
                                match litMatch "moving".data r7 >>= dropSpaces1 with
                                | none => none
                                | some r8 =>
                                    match litMatch "between".data r8 >>= dropSpaces1 with
                                    | none => none
                                    | some r9 =>
                                        match litMatch "port".data r9 >>= dropSpaces1 with
                                        | none => none
                                        | some r10 =>
                                            let p1 := r10.takeWhile isPortChar
                                            if p1 = [] then none
                                            else
                                              match dropSpaces1 (r10.drop p1.length) with
                                              | none => none
                                              | some r11 =>
                                                  match litMatch "and".data r11 >>= dropSpaces1 with
                                                  | none => none
                                                  | some r12 =>
                                                      match litMatch "port".data r12 >>= dropSpaces1 with
                                                      | none => none
                                                      | some r13 =>
                                                          let p2 := r13.takeWhile isPortChar
                                                          if p2 = [] then none
                                                          else
                                                            -- `\.?$` with `$` also matching
                                                            -- before a final newline
                                                            match r13.drop p2.length with
                                                            | [] => some (String.mk mac, String.mk p1, String.mk p2)
                                                            | ['.'] => some (String.mk mac, String.mk p1, String.mk p2)
                                                            | ['\n'] => some (String.mk mac, String.mk p1, String.mk p2)
                                                            | ['.', '\n'] => some (String.mk mac, String.mk p1, String.mk p2)
                                                            | _ => none

/-- `_norm_mac` (syslog.py lines 28-33). -/
def norm_mac (mac : String) : String :=
  let m := ((pyLower (pyStrip mac)).data.filter
      (fun c => !(c = '.' || c = '-' || c = ':')))
  if m.length = 12 then
    String.mk (m.take 4) ++ "-" ++ String.mk ((m.drop 4).take 4) ++ "-"
      ++ String.mk (m.drop 8)
  else pyLower (pyStrip mac)

/-- Python string `<=`: lexicographic comparison by code point. -/
def strLeList : List Char → List Char → Bool
  | [], _ => true
  | _ :: _, [] => false
  | a :: as, b :: bs =>
      if a.toNat < b.toNat then true
      else if a.toNat = b.toNat then strLeList as bs
      else false

/-- `_sort_ports` (syslog.py lines 35-38). -/
def sort_ports (a b : String) : String × String :=
  let a := pyStrip a
  let b := pyStrip b
  if strLeList a.data b.data then (a, b) else (b, a)

/-- The non-empty result dict of `parse_syslog` (`{}` becomes `none`). -/
structure SyslogEventInfo where
  category : String
  title : String
  fingerprint : String
  fields : List (String × String)
  deriving DecidableEq

/-- `parse_syslog` (syslog.py lines 40-100). -/
def parse_syslog (msg : String) : Option SyslogEventInfo :=
  let s := pyStrip msg
  if s = "" then none
  else
    match matchH3C s.data with
    | none => none
    | some (moduleRaw, bodyRaw) =>
        let module := pyStrip (String.mk moduleRaw)
        let body := pyStrip (String.mk bodyRaw)
        match matchMacFlapBody body.data with
        | some (mac0, p10, p20) =>
            let mac := norm_mac mac0
            let p := sort_ports p10 p20
            some { category := "L2/MAC_FLAPPING",
                   title := "MAC_FLAPPING " ++ mac ++ " " ++ p.1 ++ "<->" ++ p.2,
                   fingerprint := "syslog|MAC_FLAPPING|" ++ mac ++ "|" ++ p.1 ++ "|" ++ p.2,
                   fields := [("vendor", "H3C"), ("module", module), ("mac", mac),
                              ("port_a", p.1), ("port_b", p.2), ("body", body)] }
        | none =>
            let safe_body := String.mk (body.data.take 140)
            let head := String.mk (module.data.takeWhile (· ≠ '/'))
            let category := "H3C/" ++ (if head = "" then "SYSLOG" else head)
            let title := pyStrip (module ++ " syslog: " ++ String.mk (body.data.take 80))
            some { category := category,
                   title := title,
                   fingerprint := "syslog|" ++ module ++ "|" ++ safe_body,
                   fields := [("vendor", "H3C"), ("module", module), ("body", body)] }

/-! ## `tools/tail_ingest.py` — position tracking and delivery -/

/-- `TailState` (tail_ingest.py lines 82-87). -/
structure TailState where
  path : String
  inode : Nat
  offset : Nat
  updated_at : String
  deriving DecidableEq

/-- `post_with_retry` (lines 260-267): up to `retry_max` attempts; `outcome i`
models whether the `i`-th `post_json` call succeeds (returns without
raising).  The `time.sleep` backoff has no observable effect on the result. -/
def postRetryGo (outcome : Nat → Bool) : Nat → Nat → Bool
  | 0, _ => false
  | remaining + 1, i => if outcome i then true else postRetryGo outcome remaining (i + 1)

/-- `post_with_retry` with `RETRY_MAX = retry_max`. -/
def post_with_retry (retry_max : Nat) (outcome : Nat → Bool) : Bool :=
  postRetryGo outcome retry_max 0

/-- The startup block of `main` (lines 313-341) after `load_state`: adopt the
log path, reset the offset on an inode change, clamp an offset beyond the
end of file to zero, and start at end-of-file (persisting at once) when the
offset is zero.  Returns the in-memory state, the byte position at which
reading resumes, and whether `save_state` was called. -/
def resolveStartup (log_path : String) (st0 : TailState) (cur_inode fileEnd : Nat) :
    TailState × Nat × Bool :=
  let st1 := { st0 with path := log_path }
  let st2 := if st1.inode ≠ 0 && st1.inode ≠ cur_inode then { st1 with offset := 0 } else st1
  let st3 := { st2 with inode := cur_inode }
  let st4 := if st3.offset > fileEnd then { st3 with offset := 0 } else st3
  if st4.offset = 0 then ({ st4 with offset := fileEnd }, fileEnd, true)
  else (st4, st4.offset, false)

/-- One iteration tail of the ingest loop (lines 411-419), after the line's
record has been built and `post_with_retry` returned `ok`: on success the
in-memory offset advances to `f.tell()` and, when the once-per-second
throttle is due, the state is persisted; on failure neither the in-memory
nor the persisted offset changes.  `persisted` models the offset stored in
the state file; the result is (new in-memory state, new persisted offset). -/
def loopAdvance (st : TailState) (persisted : Nat) (tell : Nat) (ok : Bool)
    (saveDue : Bool) (now : String) : TailState × Nat :=
  if ok then
    let st1 := { st with offset := tell, updated_at := now }
    if saveDue then (st1, tell) else (st1, persisted)
  else (st, persisted)

/-! ## `app/store.py` — the aggregation store

Timestamps: the code stores ISO-8601 strings and compares them through
`_parse_ts`, which maps them to timezone-aware UTC datetimes — a linearly
ordered domain.  We embed a timestamp by its `_parse_ts` image, as an `Int`
(`e.ts`, `first_seen`, `last_seen` below), so the code's
`_parse_ts(a) < _parse_ts(b)` becomes `a < b`.  (The `datetime.now`
fallback of `_parse_ts` for empty/unparseable strings is outside every
claim, which concern records carrying well-formed timestamps.) -/

/-- The fields of `app.models.Event` that `upsert_events` reads or writes;
the remaining payload fields (source, category, title, …) are carried
through untouched and are omitted. -/
structure Event where
  event_id : String
  ts : Int
  fingerprint : Option String := none
  aggregate : Option (Nat × Int × Int) := none
  deriving DecidableEq

/-- `_AggRecord` (store.py lines 38-44). -/
structure AggRecord where
  event_id : String
  fingerprint : String
  count : Nat
  first_seen : Int
  last_seen : Int
  deriving DecidableEq

/-- Python dict lookup (assoc list with unique keys). -/
def pyDictGet {α : Type} : List (String × α) → String → Option α
  | [], _ => none
  | (k2, v) :: t, k => if k2 = k then some v else pyDictGet t k

/-- Python dict assignment: update in place, or append when absent. -/
def pyDictPut {α : Type} : List (String × α) → String → α → List (String × α)
  | [], k, v => [(k, v)]
  | (k2, v2) :: t, k, v =>
      if k2 = k then (k, v) :: t else (k2, v2) :: pyDictPut t k v

/-- `InMemoryStore`'s dictionaries (store.py lines 47-56). -/
structure InMemoryStore where
  events : List (String × Event) := []
  agg : List (String × AggRecord) := []
  agg_event : List (String × Event) := []
  deriving DecidableEq

/-- The body of the `for e in events` loop of `upsert_events`
(store.py lines 91-139) for a single event. -/
def upsert_one (st : InMemoryStore) (e : Event) : InMemoryStore :=
  let st := { st with events := pyDictPut st.events e.event_id e }
  let fp := pyStrip (e.fingerprint.getD "")
  if fp = "" then st
  else
    match pyDictGet st.agg fp with
    | none =>
        let r0 : AggRecord :=
          { event_id := e.event_id, fingerprint := fp, count := 1,
            first_seen := e.ts, last_seen := e.ts }
        let agg_e := { e with aggregate := some (1, e.ts, e.ts),
                              fingerprint := some fp }
        { st with agg := pyDictPut st.agg fp r0,
                  agg_event := pyDictPut st.agg_event fp agg_e }
    | some r =>
        let r1 := { r with count := r.count + 1 }
        let r2 := if e.ts < r1.first_seen then { r1 with first_seen := e.ts } else r1
        let r3 := if e.ts > r2.last_seen then { r2 with last_seen := e.ts, event_id := e.event_id } else r2
        let st := { st with agg := pyDictPut st.agg fp r3 }
        match pyDictGet st.agg_event fp with
        | some ae =>
            let ae2 := { ae with aggregate := some (r3.count, r3.first_seen, r3.last_seen),
                                 event_id := r3.event_id, ts := r3.last_seen }
            { st with agg_event := pyDictPut st.agg_event fp ae2 }
        | none => st
        -- the `none` branch would be a Python `KeyError`; `_agg` and
        -- `_agg_event` always hold the same keys, so it is unreachable

/-- `upsert_events` (store.py lines 88-141): fold the loop body over the
batch; `inserted_ids` collects every `event_id` (appended before the
fingerprint check). -/
def upsert_events (st : InMemoryStore) (es : List Event) :
    InMemoryStore × List String :=
  (es.foldl upsert_one st, es.map (fun e => e.event_id))

/-- The aggregate count recorded for a fingerprint (0 when absent). -/
def aggCount (st : InMemoryStore) (fp : String) : Nat :=
  match pyDictGet st.agg fp with
  | some r => r.count
  | none => 0

/-- The `last_seen` recorded for a fingerprint. -/
def aggLast (st : InMemoryStore) (fp : String) : Option Int :=
  (pyDictGet st.agg fp).map (fun r => r.last_seen)

/-- The `first_seen` recorded for a fingerprint. -/
def aggFirst (st : InMemoryStore) (fp : String) : Option Int :=
  (pyDictGet st.agg fp).map (fun r => r.first_seen)

/-- `first_seen ≤ last_seen` for every tracked aggregate. -/
def AggInv (st : InMemoryStore) : Prop :=
  ∀ fp r, pyDictGet st.agg fp = some r → r.first_seen ≤ r.last_seen

/-- The mathematical content of one aggregation step: what `upsert_one`
records at the event's fingerprint. -/
def aggStep (e : Event) (fp : String) (o : Option AggRecord) : AggRecord :=
  match o with
  | none =>
      { event_id := e.event_id, fingerprint := fp, count := 1,
        first_seen := e.ts, last_seen := e.ts }
  | some r =>
      let r1 := { r with count := r.count + 1 }
      let r2 := if e.ts < r1.first_seen then { r1 with first_seen := e.ts } else r1
      if e.ts > r2.last_seen then { r2 with last_seen := e.ts, event_id := e.event_id } else r2

/-- The stripped fingerprint under which `upsert_one` aggregates an event
(`fp = (e.fingerprint or "").strip()`). -/
def fpOf (e : Event) : String := pyStrip (e.fingerprint.getD "")

/-- The extraction path of `parse_syslog` up to the MAC-flapping branch: the
`(mac, p1, p2)` groups matched on a message, exactly as the source computes
them (strip, H3C header match, strip the body, flap match). -/
def flapExtract (msg : String) : Option (String × String × String) :=
  let s := pyStrip msg
  if s = "" then none
  else
    match matchH3C s.data with
    | none => none
    | some (_, bodyRaw) => matchMacFlapBody (pyStrip (String.mk bodyRaw)).data

/-! ## Concrete scenario inputs -/

/-- The end-to-end scenario line of the specification. -/
def linkLine : String :=
  "Dec 26 19:30:12 2025 SW01:  %%IFNET/5/LINK_UPDOWN: GigabitEthernet1/0/1 link down."

/-- H3C MAC-flapping line, ports in one order. -/
def macFlapLine1 : String :=
  "%Aug 18 14:25:29:336 2025 H3C L2MGNT/5/MAC_FLAPPING: MAC address 5489-98b3-2111 has been moving between port Gi1/0/48 and port Gi2/0/48."

/-- The same MAC-flapping condition reported with the ports swapped. -/
def macFlapLine2 : String :=
  "%Aug 18 14:25:31:107 2025 H3C L2MGNT/5/MAC_FLAPPING: MAC address 5489-98b3-2111 has been moving between port Gi2/0/48 and port Gi1/0/48."

/-- A sample event for store evaluations. -/
def evA : Event := { event_id := "e1", ts := 100, fingerprint := some "fp-x" }

/-- A second occurrence of the same condition, with an earlier timestamp. -/
def evB : Event := { event_id := "e2", ts := 90, fingerprint := some "fp-x" }

/-- A sample tail-position state. -/
def sampleTail : TailState :=
  { path := "/var/log/rsyslog-remote.log", inode := 7, offset := 120,
    updated_at := "t0" }


/-! ## Pinned sanity checks against the Python behaviour -/

theorem sha1_vector_abc :
    bytesToHex (sha1Bytes (utf8 "abc")) =
      "a9993e364706816aba3e25717850c26c9cd0d89d" := by decide

theorem sha1_vector_empty :
    bytesToHex (sha1Bytes []) =
      "da39a3ee5e6b4b0d3255bfef95601890afd80709" := by decide

theorem sha256_vector_abc :
    bytesToHex (sha256Bytes (utf8 "abc")) =
      "ba7816bf8f01cfea414140de5dae2223b00361a396177a9cb410ff61f20015ad" := by
  decide

theorem hmac_sha256_vector :
    bytesToHex (hmacSha256 (utf8 "key")
        (utf8 "The quick brown fox jumps over the lazy dog")) =
      "f7bc83f430538424b13298e6aa6fb143ef4d59a14946175997479dbc2d1a3cd8" := by
  decide

theorem parse_sample_line :
    parse_syslog_line
        "Dec 26 19:30:12 2025 SW01:  %%IFNET/5/LINK_UPDOWN: GigabitEthernet1/0/1 link down." =
      ("SW01", "syslog",
       "%%IFNET/5/LINK_UPDOWN: GigabitEthernet1/0/1 link down.") := by decide

theorem classify_sample_link :
    classify_as_event
        "%%IFNET/5/LINK_UPDOWN: GigabitEthernet1/0/1 link down." "SW01" =
      some ("SWITCH_LINK", "SW01 GigabitEthernet1/0/1 link down",
            "b9948b0fdd560c25") := by decide

theorem parse_syslog_sample :
    (parse_syslog "%Aug 18 14:25:29:336 2025 H3C L2MGNT/5/MAC_FLAPPING: MAC address 5489-98b3-2111 has been moving between port GigabitEthernet1/0/48 and port GigabitEthernet2/0/48.").map
        (fun r => (r.category, r.fingerprint)) =
      some ("L2/MAC_FLAPPING",
            "syslog|MAC_FLAPPING|5489-98b3-2111|GigabitEthernet1/0/48|GigabitEthernet2/0/48") := by
  decide


/-! ## Lemmas about the aggregation store -/

theorem pyDictGet_put {α : Type} (m : List (String × α)) (k k2 : String) (v : α) :
    pyDictGet (pyDictPut m k v) k2 = if k = k2 then some v else pyDictGet m k2 := by
  induction m with
  | nil => simp [pyDictPut, pyDictGet]
  | cons h t ih =>
      obtain ⟨k3, v3⟩ := h
      by_cases h3 : k3 = k
      · subst h3
        simp only [pyDictPut, if_pos rfl, pyDictGet]
        by_cases h2 : k3 = k2 <;> simp [h2]
      · simp only [pyDictPut, if_neg h3, pyDictGet]
        by_cases h2 : k3 = k2
        · subst h2
          have : ¬ k = k3 := fun h => h3 h.symm
          simp [this]
        · simp [h2, ih]

theorem aggStep_count (e : Event) (fp : String) (o : Option AggRecord) :
    (aggStep e fp o).count = (match o with | none => 0 | some r => r.count) + 1 := by
  cases o with
  | none => rfl
  | some r => simp only [aggStep]; split_ifs <;> rfl

theorem aggStep_last (e : Event) (fp : String) (o : Option AggRecord) :
    (aggStep e fp o).last_seen =
      (match o with | none => e.ts | some r => max r.last_seen e.ts) := by
  cases o with
  | none => rfl
  | some r =>
      simp only [aggStep]
      split_ifs with h1 h2 h2 <;> simp_all <;> omega

theorem aggStep_first (e : Event) (fp : String) (o : Option AggRecord) :
    (aggStep e fp o).first_seen =
      (match o with | none => e.ts | some r => min r.first_seen e.ts) := by
  cases o with
  | none => rfl
  | some r =>
      simp only [aggStep]
      split_ifs with h1 h2 h2 <;> simp_all <;> omega

/-- How `upsert_one` changes the aggregate dictionary, seen through
`pyDictGet`. -/
theorem upsert_one_agg (st : InMemoryStore) (e : Event) (fp : String) :
    pyDictGet (upsert_one st e).agg fp =
      (if pyStrip (e.fingerprint.getD "") = "" then pyDictGet st.agg fp
       else if pyStrip (e.fingerprint.getD "") = fp then
         some (aggStep e fp (pyDictGet st.agg fp))
       else pyDictGet st.agg fp) := by
  simp only [upsert_one]
  by_cases h0 : pyStrip (e.fingerprint.getD "") = ""
  · simp [h0]
  · simp only [if_neg h0]
    cases hg : pyDictGet st.agg (pyStrip (e.fingerprint.getD "")) with
    | none =>
        by_cases h2 : pyStrip (e.fingerprint.getD "") = fp
        · subst h2
          simp [hg, pyDictGet_put, aggStep, h0]
        · simp [hg, pyDictGet_put, h2, h0]
    | some r =>
        simp only [hg]
        by_cases h2 : pyStrip (e.fingerprint.getD "") = fp
        · subst h2
          split <;> simp [pyDictGet_put, aggStep, hg]
        · split <;> simp [pyDictGet_put, h2, hg]

theorem upsert_one_count (st : InMemoryStore) (e : Event) (h : fpOf e ≠ "") :
    aggCount (upsert_one st e) (fpOf e) = aggCount st (fpOf e) + 1 := by
  unfold aggCount
  rw [upsert_one_agg]
  simp only [fpOf] at h ⊢
  rw [if_neg h]
  cases hg : pyDictGet st.agg (pyStrip (e.fingerprint.getD "")) <;>
    simp [hg, aggStep_count]

theorem upsert_one_agg_ne (st : InMemoryStore) (e : Event) (fp : String)
    (h : fpOf e ≠ fp) :
    pyDictGet (upsert_one st e).agg fp = pyDictGet st.agg fp := by
  rw [upsert_one_agg]
  simp only [fpOf] at h
  by_cases h1 : pyStrip (e.fingerprint.getD "") = ""
  · rw [if_pos h1]
  · rw [if_neg h1, if_neg h]

theorem upsert_one_last_same (st : InMemoryStore) (e : Event) (h : fpOf e ≠ "") :
    aggLast (upsert_one st e) (fpOf e) =
      some (match aggLast st (fpOf e) with
            | none => e.ts
            | some l => max l e.ts) := by
  unfold aggLast
  rw [upsert_one_agg]
  simp only [fpOf] at h ⊢
  rw [if_neg h]
  cases hg : pyDictGet st.agg (pyStrip (e.fingerprint.getD "")) <;>
    simp [hg, aggStep_last]

theorem upsert_one_last_mono (st : InMemoryStore) (e : Event) (fp : String)
    (l : Int) (h : aggLast st fp = some l) :
    ∃ l2, aggLast (upsert_one st e) fp = some l2 ∧ l ≤ l2 := by
  by_cases hfp : fpOf e = fp
  · by_cases h0 : fpOf e = ""
    · refine ⟨l, ?_, le_refl l⟩
      unfold aggLast
      rw [upsert_one_agg]
      simp only [fpOf] at h0
      rw [if_pos h0]
      exact h
    · subst hfp
      have hs := upsert_one_last_same st e h0
      rw [h] at hs
      exact ⟨max l e.ts, hs, le_max_left l e.ts⟩
  · refine ⟨l, ?_, le_refl l⟩
    unfold aggLast
    rw [upsert_one_agg_ne st e fp hfp]
    exact h

theorem foldl_last_from (es : List Event) :
    ∀ (st : InMemoryStore) (fp : String) (l : Int), fp ≠ "" →
      (∀ e ∈ es, fpOf e = fp) → aggLast st fp = some l →
      aggLast (es.foldl upsert_one st) fp =
        some (es.foldl (fun acc e => max acc e.ts) l) := by
  induction es with
  | nil => intro st fp l _ _ hl; simpa using hl
  | cons e rest ih =>
      intro st fp l hfp hall hl
      simp only [List.foldl_cons]
      have he : fpOf e = fp := hall e (List.mem_cons_self e rest)
      have h1 : aggLast (upsert_one st e) fp = some (max l e.ts) := by
        have hs := upsert_one_last_same st e (by rw [he]; exact hfp)
        rw [he, hl] at hs
        exact hs
      exact ih _ _ _ hfp (fun x hx => hall x (List.mem_cons_of_mem e hx)) h1

theorem upsert_one_inv (st : InMemoryStore) (e : Event) (h : AggInv st) :
    AggInv (upsert_one st e) := by
  intro fp r hr
  rw [upsert_one_agg] at hr
  split_ifs at hr with h1 h2
  · exact h fp r hr
  · injection hr with hr
    subst hr
    have hf := aggStep_first e fp (pyDictGet st.agg fp)
    have hl := aggStep_last e fp (pyDictGet st.agg fp)
    cases hg : pyDictGet st.agg fp with
    | none => rw [hg] at hf hl; simp at hf hl; omega
    | some r0 =>
        have hr0 := h fp r0 hg
        rw [hg] at hf hl
        simp at hf hl
        omega
  · exact h fp r hr

theorem foldl_inv (es : List Event) :
    ∀ (st : InMemoryStore), AggInv st → AggInv (es.foldl upsert_one st) := by
  induction es with
  | nil => intro st h; simpa using h
  | cons e rest ih => intro st h; exact ih _ (upsert_one_inv st e h)

/-! ## Lemmas about delivery and retry -/

theorem postRetryGo_all_false (outcome : Nat → Bool) :
    ∀ (remaining i : Nat),
      (∀ j, i ≤ j → j < i + remaining → outcome j = false) →
      postRetryGo outcome remaining i = false := by
  intro remaining
  induction remaining with
  | zero => intro i _; rfl
  | succ n ih =>
      intro i h
      simp only [postRetryGo]
      rw [h i (le_refl i) (by omega)]
      simp only [Bool.false_eq_true, if_false]
      exact ih (i + 1) (fun j hj1 hj2 => h j (by omega) (by omega))

theorem post_with_retry_all_false (rm : Nat) (outcome : Nat → Bool)
    (h : ∀ i, i < rm → outcome i = false) : post_with_retry rm outcome = false :=
  postRetryGo_all_false outcome rm 0 (fun j _ h2 => h j (by omega))

/-! ## Lemmas about string comparison and port sorting -/

theorem charToNat_inj {a b : Char} (h : a.toNat = b.toNat) : a = b :=
  Char.eq_of_val_eq (UInt32.ext h)

theorem stringDataInj {a b : String} (h : a.data = b.data) : a = b :=
  congrArg String.mk h

theorem strLeList_total (as : List Char) :
    ∀ bs : List Char, strLeList as bs = true ∨ strLeList bs as = true := by
  induction as with
  | nil => intro bs; left; rfl
  | cons a as ih =>
      intro bs
      cases bs with
      | nil => right; rfl
      | cons b bs =>
          simp only [strLeList]
          rcases Nat.lt_trichotomy a.toNat b.toNat with h | h | h
          · left; rw [if_pos h]
          · have h1 : ¬ a.toNat < b.toNat := by omega
            have h2 : ¬ b.toNat < a.toNat := by omega
            rw [if_neg h1, if_pos h, if_neg h2, if_pos h.symm]
            exact ih bs
          · right; rw [if_pos h]

theorem strLeList_antisymm (as : List Char) :
    ∀ bs : List Char, strLeList as bs = true → strLeList bs as = true →
      as = bs := by
  induction as with
  | nil =>
      intro bs h1 h2
      cases bs with
      | nil => rfl
      | cons b bs => exact absurd h2 (by simp [strLeList])
  | cons a as ih =>
      intro bs h1 h2
      cases bs with
      | nil => exact absurd h1 (by simp [strLeList])
      | cons b bs =>
          simp only [strLeList] at h1 h2
          rcases Nat.lt_trichotomy a.toNat b.toNat with h | h | h
          · rw [if_neg (by omega : ¬ b.toNat < a.toNat),
                if_neg (by omega : ¬ b.toNat = a.toNat)] at h2
            exact absurd h2 (by simp)
          · have hab : a = b := charToNat_inj h
            subst hab
            rw [if_neg (by omega : ¬ a.toNat < a.toNat), if_pos rfl] at h1 h2
            rw [ih bs h1 h2]
          · rw [if_neg (by omega : ¬ a.toNat < b.toNat),
                if_neg (by omega : ¬ a.toNat = b.toNat)] at h1
            exact absurd h1 (by simp)

theorem sort_ports_swap (a b : String) : sort_ports a b = sort_ports b a := by
  simp only [sort_ports]
  rcases strLeList_total (pyStrip a).data (pyStrip b).data with h | h
  · rw [if_pos h]
    by_cases h2 : strLeList (pyStrip b).data (pyStrip a).data = true
    · rw [if_pos h2, stringDataInj (strLeList_antisymm _ _ h h2)]
    · rw [if_neg h2]
  · rw [if_pos h]
    by_cases h2 : strLeList (pyStrip a).data (pyStrip b).data = true
    · rw [if_pos h2, stringDataInj (strLeList_antisymm _ _ h2 h)]
    · rw [if_neg h2]

/-! ## Lemmas about `parse_syslog` -/

theorem parse_syslog_flap_fingerprint (msg mac a b : String)
    (h : flapExtract msg = some (mac, a, b)) :
    (parse_syslog msg).map (fun r => r.fingerprint) =
      some ("syslog|MAC_FLAPPING|" ++ norm_mac mac ++ "|" ++ (sort_ports a b).1
            ++ "|" ++ (sort_ports a b).2) := by
  simp only [flapExtract] at h
  simp only [parse_syslog]
  by_cases h0 : pyStrip msg = ""
  · rw [if_pos h0] at h; exact absurd h (by simp)
  · rw [if_neg h0] at h ⊢
    cases hh : matchH3C (pyStrip msg).data with
    | none => rw [hh] at h; exact absurd h (by simp)
    | some pr =>
        obtain ⟨moduleRaw, bodyRaw⟩ := pr
        rw [hh] at h
        dsimp only at h ⊢
        rw [h]
        simp

/-! ## Lemmas about the IPv4 matcher -/

theorem token_head_lt (pfx h : String) :
    ("<" ++ pfx ++ ":" ++ h ++ ">").data =
      '<' :: (pfx ++ ":" ++ h ++ ">").data := by
  have hassoc : "<" ++ pfx ++ ":" ++ h ++ ">" =
      "<" ++ (pfx ++ ":" ++ h ++ ">") := by
    apply stringDataInj
    simp [String.data_append, List.append_assoc]
  rw [hassoc, String.data_append]
  rfl

theorem ipSegsMatch_head_digit (k : Nat) (cs seg rest : List Char)
    (h : ipSegsMatch k cs = some (seg, rest)) :
    ∃ c cs2, cs = c :: cs2 ∧ c.isDigit = true := by
  cases cs with
  | nil => cases k <;> simp [ipSegsMatch, countDigits] at h
  | cons c cs2 =>
      refine ⟨c, cs2, rfl, ?_⟩
      by_contra hd
      have hd2 : c.isDigit = false := by
        cases hc : c.isDigit
        · rfl
        · exact absurd hc hd
      cases k <;> simp [ipSegsMatch, countDigits, hd2] at h

/-! ## Lemmas about the masking stats -/

theorem desensitize_line_stats (cfg : DesensitizeConfig) (fs : FsModel)
    (st : DState) (line m : String) (st2 : DState)
    (stats : List (String × Nat))
    (h : desensitize_line cfg fs st line = .ok (m, st2, stats)) : stats = [] := by
  simp only [desensitize_line] at h
  cases h1 : mask_ip cfg fs st line.data with
  | error e => rw [h1] at h; exact absurd h (by simp)
  | ok p1 =>
      obtain ⟨s1, st1⟩ := p1
      rw [h1] at h
      dsimp only at h
      cases h2 : mask_mac cfg fs st1 s1 with
      | error e => rw [h2] at h; exact absurd h (by simp)
      | ok p2 =>
          obtain ⟨s2, st2a⟩ := p2
          rw [h2] at h
          dsimp only at h
          cases h3 : mask_secret cfg fs st2a s2 with
          | error e => rw [h3] at h; exact absurd h (by simp)
          | ok p3 =>
              obtain ⟨s3, st3⟩ := p3
              rw [h3] at h
              dsimp only at h
              simp only [Except.ok.injEq, Prod.mk.injEq] at h
              exact h.2.2.symm

theorem mask_text_stats (des : Option DesensitizeConfig) (fs : FsModel)
    (st : DState) (text m : String) (st2 : DState)
    (stats : List (String × Nat))
    (h : mask_text des fs st text = .ok (m, st2, stats)) : stats = [] := by
  cases des with
  | none =>
      simp only [mask_text, Except.ok.injEq, Prod.mk.injEq] at h
      exact h.2.2.symm
  | some cfg =>
      simp only [mask_text] at h
      cases h1 : desensitize_line cfg fs st (text ++ "\n") with
      | error e => rw [h1] at h; exact absurd h (by simp)
      | ok r =>
          obtain ⟨rm, rst, rstats⟩ := r
          rw [h1] at h
          dsimp only at h
          simp only [Except.ok.injEq, Prod.mk.injEq] at h
          rw [← h.2.2]
          exact desensitize_line_stats cfg fs st (text ++ "\n") rm rst rstats h1

theorem ingest_classify_stats (des : Option DesensitizeConfig) (fs : FsModel)
    (st : DState) (line : String) (ev : Option (String × String × String))
    (stats : List (String × Nat))
    (h : ingest_classify des fs st line = .ok (ev, stats)) : stats = [] := by
  simp only [ingest_classify] at h
  cases h1 : mask_text des fs st (parse_syslog_line line).1 with
  | error e => rw [h1] at h; exact absurd h (by simp)
  | ok p1 =>
      obtain ⟨hm, st1, hstats⟩ := p1
      rw [h1] at h
      dsimp only at h
      cases h2 : mask_text des fs st1 (parse_syslog_line line).2.2 with
      | error e => rw [h2] at h; exact absurd h (by simp)
      | ok p2 =>
          obtain ⟨mm, st2m, mstats⟩ := p2
          rw [h2] at h
          dsimp only at h
          simp only [Except.ok.injEq, Prod.mk.injEq] at h
          rw [← h.2]
          rw [mask_text_stats des fs st _ hm st1 hstats h1,
              mask_text_stats des fs st1 _ mm st2m mstats h2]
          rfl

/-! # The claims

Each claim of the specification review is settled by exactly one theorem
below (plus, where needed, a closed counterexample and a witness
instantiation). -/

/-! ### C1 — end-to-end link-down scenario -/

/-- C1, counterexample: for the specification's input line, the pipeline
(`parse_syslog_line`, masking with no sensitive tokens, `classify_as_event`)
does produce category `SWITCH_LINK` and title `SW01 GigabitEthernet1/0/1
link down`, but the fingerprint is the 16-hex-digit SHA-1 prefix
`b9948b0fdd560c25`, not the claimed `h3c|SW01|GigabitEthernet1/0/1|link_down`. -/
theorem pipeline_link_fingerprint_not_h3c :
    ingest_classify (some sampleCfg) {} {} linkLine =
      .ok (some ("SWITCH_LINK", "SW01 GigabitEthernet1/0/1 link down",
                 "b9948b0fdd560c25"), [])
    ∧ ("b9948b0fdd560c25" : String) ≠ "h3c|SW01|GigabitEthernet1/0/1|link_down" :=
  ⟨by decide, by decide⟩

/-- C1, amended: for every masking configuration and desensitizer state
(the line contains no sensitive tokens, so masking leaves it unchanged), the
pipeline classifies the specification's line as category `SWITCH_LINK` with
title `SW01 GigabitEthernet1/0/1 link down` and fingerprint
`stable_fingerprint "LINK|SW01|GigabitEthernet1/0/1|down"`, the first 16 hex
digits of its SHA-1, namely `b9948b0fdd560c25`. -/
theorem pipeline_link_event_sha1_fingerprint :
    ∀ (cfg : DesensitizeConfig) (fs : FsModel) (st : DState),
      ingest_classify (some cfg) fs st linkLine =
        .ok (some ("SWITCH_LINK", "SW01 GigabitEthernet1/0/1 link down",
                   stable_fingerprint "LINK|SW01|GigabitEthernet1/0/1|down"), [])
      ∧ stable_fingerprint "LINK|SW01|GigabitEthernet1/0/1|down" =
          "b9948b0fdd560c25" :=
  fun cfg fs st => ⟨rfl, by decide⟩

/-! ### C2 — MAC-flapping fingerprint order-invariance -/

/-- C2: whenever `parse_syslog` reaches the MAC-flapping branch on two
messages whose extracted groups are `(mac, a, b)` and `(mac, b, a)`, both
messages get the same fingerprint (the ports are sorted before inclusion);
in particular the two concrete swapped-port lines both produce
`syslog|MAC_FLAPPING|5489-98b3-2111|Gi1/0/48|Gi2/0/48`. -/
theorem mac_flap_fingerprint_order_invariant :
    (∀ (s t mac a b : String),
        flapExtract s = some (mac, a, b) → flapExtract t = some (mac, b, a) →
        (parse_syslog s).map (fun r => r.fingerprint) =
          (parse_syslog t).map (fun r => r.fingerprint))
    ∧ (parse_syslog macFlapLine1).map (fun r => r.fingerprint) =
        some "syslog|MAC_FLAPPING|5489-98b3-2111|Gi1/0/48|Gi2/0/48"
    ∧ (parse_syslog macFlapLine2).map (fun r => r.fingerprint) =
        some "syslog|MAC_FLAPPING|5489-98b3-2111|Gi1/0/48|Gi2/0/48" := by
  refine ⟨?_, by decide, by decide⟩
  intro s t mac a b hs ht
  rw [parse_syslog_flap_fingerprint s mac a b hs,
      parse_syslog_flap_fingerprint t mac b a ht,
      sort_ports_swap b a]

/-- C2, witness: the two concrete swapped-port lines instantiate the
order-invariance theorem. -/
theorem mac_flap_fingerprint_order_invariant_witness :
    flapExtract macFlapLine1 = some ("5489-98b3-2111", "Gi1/0/48", "Gi2/0/48")
    ∧ flapExtract macFlapLine2 = some ("5489-98b3-2111", "Gi2/0/48", "Gi1/0/48")
    ∧ (parse_syslog macFlapLine1).map (fun r => r.fingerprint) =
        (parse_syslog macFlapLine2).map (fun r => r.fingerprint) :=
  ⟨by decide, by decide,
   mac_flap_fingerprint_order_invariant.1 macFlapLine1 macFlapLine2
     "5489-98b3-2111" "Gi1/0/48" "Gi2/0/48" (by decide) (by decide)⟩

/-! ### C3 — aggregation under replay -/

/-- C3: (i) upserting the same event `N` times increases the count at its
fingerprint by exactly `N`; (ii) starting from a store not yet tracking the
fingerprint, after any sequence of upserts with that fingerprint `last_seen`
equals the maximum of the applied timestamps; (iii) a single upsert never
decreases any tracked `last_seen`. -/
theorem aggregation_replay_and_last_seen :
    (∀ (N : Nat) (st : InMemoryStore) (e : Event), fpOf e ≠ "" →
        aggCount (upsert_events st (List.replicate N e)).1 (fpOf e) =
          aggCount st (fpOf e) + N)
    ∧ (∀ (st : InMemoryStore) (e : Event) (es : List Event), fpOf e ≠ "" →
        (∀ x ∈ es, fpOf x = fpOf e) → aggLast st (fpOf e) = none →
        aggLast (upsert_events st (e :: es)).1 (fpOf e) =
          some (es.foldl (fun acc x => max acc x.ts) e.ts))
    ∧ (∀ (st : InMemoryStore) (e : Event) (fp : String) (l : Int),
        aggLast st fp = some l →
        ∃ l2, aggLast (upsert_one st e) fp = some l2 ∧ l ≤ l2) := by
  refine ⟨?_, ?_, upsert_one_last_mono⟩
  · intro N
    induction N with
    | zero => intro st e _; simp [upsert_events]
    | succ n ih =>
        intro st e h
        simp only [upsert_events, List.replicate_succ, List.foldl_cons]
        have := ih (upsert_one st e) e h
        simp only [upsert_events] at this
        rw [this, upsert_one_count st e h]
        omega
  · intro st e es h hall hnone
    have h1 : aggLast (upsert_one st e) (fpOf e) = some e.ts := by
      have hs := upsert_one_last_same st e h
      rw [hnone] at hs
      simpa using hs
    have h2 := foldl_last_from es (upsert_one st e) (fpOf e) e.ts h hall h1
    simpa [upsert_events] using h2

/-- C3, witness: a triple replay counts to 3, a two-event sequence tracks
the larger timestamp, and an earlier-timestamp upsert does not decrease
`last_seen`. -/
theorem aggregation_replay_and_last_seen_witness :
    fpOf evA ≠ ""
    ∧ aggCount (upsert_events {} (List.replicate 3 evA)).1 (fpOf evA) =
        aggCount ({} : InMemoryStore) (fpOf evA) + 3
    ∧ aggLast (upsert_events {} [evA, evB]).1 (fpOf evA) =
        some ([evB].foldl (fun acc x => max acc x.ts) evA.ts)
    ∧ ∃ l2, aggLast (upsert_one (upsert_events ({} : InMemoryStore) [evA]).1 evB)
          (fpOf evA) = some l2 ∧ (100 : Int) ≤ l2 :=
  ⟨by decide,
   aggregation_replay_and_last_seen.1 3 {} evA (by decide),
   aggregation_replay_and_last_seen.2.1 {} evA [evB] (by decide) (by decide)
     (by decide),
   aggregation_replay_and_last_seen.2.2 (upsert_events ({} : InMemoryStore) [evA]).1
     evB (fpOf evA) 100 (by decide)⟩

/-! ### C4 — deterministic masking tokens -/

/-- C4: on fresh desensitizer instances (no persisted mapping) sharing a
secret, `_map_value` deterministically produces the identical token
`<pfx:h>` where `h` is the first 10 hex digits of HMAC-SHA256 of the raw
value under the secret. -/
theorem masking_token_deterministic :
    ∀ (cfg1 cfg2 : DesensitizeConfig) (fs1 fs2 : FsModel) (raw pfx : String),
      cfg1.secret_key = cfg2.secret_key →
      fs1.mkdirFails = false → fs2.mkdirFails = false →
      tokenOf (map_value cfg1 fs1 {} raw pfx) =
          some ("<" ++ pfx ++ ":" ++
            (bytesToHex (hmacSha256 (utf8 cfg1.secret_key) (utf8 raw))).take 10
            ++ ">")
      ∧ tokenOf (map_value cfg2 fs2 {} raw pfx) =
          tokenOf (map_value cfg1 fs1 {} raw pfx) := by
  intro cfg1 cfg2 fs1 fs2 raw pfx hsec h1 h2
  have key : ∀ (cfg : DesensitizeConfig) (fs : FsModel), fs.mkdirFails = false →
      tokenOf (map_value cfg fs {} raw pfx) =
        some ("<" ++ pfx ++ ":" ++ hashToken cfg raw ++ ">") := by
    intro cfg fs hf
    simp [map_value, dictFind, save_map, hf, tokenOf]
  refine ⟨key cfg1 fs1 h1, ?_⟩
  rw [key cfg1 fs1 h1, key cfg2 fs2 h2]
  simp [hashToken, hsec]

/-- C4, witness: two fresh instances sharing the secret `"topsecret"`, one
of them reversible, both map `1.2.3.4` to `<IP:0ab1e0cc58>`. -/
theorem masking_token_deterministic_witness :
    sampleCfg.secret_key = sampleCfgRev.secret_key
    ∧ tokenOf (map_value sampleCfg {} {} "1.2.3.4" "IP") = some "<IP:0ab1e0cc58>"
    ∧ tokenOf (map_value sampleCfgRev {} {} "1.2.3.4" "IP") =
        tokenOf (map_value sampleCfg {} {} "1.2.3.4" "IP") :=
  ⟨rfl, by decide,
   (masking_token_deterministic sampleCfg sampleCfgRev {} {} "1.2.3.4" "IP"
     rfl rfl rfl).2⟩

/-! ### C5 — the offset advances only on delivery success -/

/-- C5: when every delivery attempt fails, `post_with_retry` reports failure
and the loop leaves both the in-memory offset and the persisted offset
unchanged; conversely any change of either offset implies the delivery
succeeded. -/
theorem offset_advances_only_on_success :
    (∀ (rm : Nat) (outcome : Nat → Bool) (st : TailState) (p tell : Nat)
        (d : Bool) (now : String),
        (∀ i, i < rm → outcome i = false) →
        loopAdvance st p tell (post_with_retry rm outcome) d now = (st, p))
    ∧ (∀ (st : TailState) (p tell : Nat) (ok d : Bool) (now : String),
        (loopAdvance st p tell ok d now).1.offset ≠ st.offset ∨
          (loopAdvance st p tell ok d now).2 ≠ p → ok = true) := by
  constructor
  · intro rm outcome st p tell d now h
    rw [post_with_retry_all_false rm outcome h]
    rfl
  · intro st p tell ok d now h
    cases ok with
    | true => rfl
    | false => simp [loopAdvance] at h

/-- C5, witness: three failing attempts leave offset 120 and persisted
offset 96 unchanged. -/
theorem offset_advances_only_on_success_witness :
    (∀ i, i < 3 → (fun _ => false : Nat → Bool) i = false)
    ∧ loopAdvance sampleTail 96 150 (post_with_retry 3 (fun _ => false))
        false "t1" = (sampleTail, 96) :=
  ⟨fun _ _ => rfl,
   offset_advances_only_on_success.1 3 (fun _ => false) sampleTail 96 150
     false "t1" (fun _ _ => rfl)⟩

/-! ### C6 — startup with a persisted offset beyond the file size -/

/-- C6, counterexample: with persisted offset 100 and file size 50, startup
resumes reading at byte 50 (end of file) and stores offset 50 — not at
byte 0 as claimed. -/
theorem truncation_resume_not_at_zero :
    (resolveStartup "/var/log/rsyslog-remote.log"
        { path := "/var/log/rsyslog-remote.log", inode := 7, offset := 100,
          updated_at := "t0" } 7 50).2.1 = 50
    ∧ (resolveStartup "/var/log/rsyslog-remote.log"
        { path := "/var/log/rsyslog-remote.log", inode := 7, offset := 100,
          updated_at := "t0" } 7 50).1.offset = 50
    ∧ (50 : Nat) ≠ 0 :=
  ⟨by decide, by decide, by decide⟩

/-- C6, amended: whenever the persisted offset exceeds the file size, the
offset variable is reset to zero and the zero-offset rule then applies:
reading resumes at the end-of-file offset, which is also persisted at once. -/
theorem truncation_reset_starts_at_eof :
    ∀ (lp : String) (st : TailState) (ci fe : Nat),
      st.offset > fe →
      resolveStartup lp st ci fe =
        ({ path := lp, inode := ci, offset := fe, updated_at := st.updated_at },
         fe, true) := by
  intro lp st ci fe h
  simp only [resolveStartup]
  split_ifs <;> first | rfl | (simp_all <;> omega)

/-- C6, witness: persisted offset 120 against file size 80. -/
theorem truncation_reset_starts_at_eof_witness :
    sampleTail.offset > 80
    ∧ resolveStartup "/var/log/rsyslog-remote.log" sampleTail 7 80 =
        ({ path := "/var/log/rsyslog-remote.log", inode := 7, offset := 80,
           updated_at := "t0" }, 80, true) :=
  ⟨by decide,
   truncation_reset_starts_at_eof "/var/log/rsyslog-remote.log" sampleTail 7 80
     (by decide)⟩

/-! ### C7 — the per-line masking stats -/

/-- C7, counterexample: a line in which an IP address is masked (the text
changes and a mapping entry is created) still yields an empty stats dict —
`desensitize_line` never populates `meta`. -/
theorem mask_stats_empty_despite_masking :
    desensitize_line sampleCfg {} {} "src=1.2.3.4\n" =
      .ok ("src=<IP:0ab1e0cc58>\n",
           { map := [("1.2.3.4", "<IP:0ab1e0cc58>")] }, [])
    ∧ ("src=<IP:0ab1e0cc58>\n" : String) ≠ "src=1.2.3.4\n" :=
  ⟨by decide, by decide⟩

/-- C7, amended: `desensitize_line` always returns an empty stats mapping
(the `meta` dict is initialised to `{}` and never written), so the merged
`mask_stats` the ingest loop places in the outbound record is always empty
as well. -/
theorem mask_stats_always_empty :
    (∀ (cfg : DesensitizeConfig) (fs : FsModel) (st : DState) (line m : String)
        (st2 : DState) (stats : List (String × Nat)),
        desensitize_line cfg fs st line = .ok (m, st2, stats) → stats = [])
    ∧ (∀ (des : Option DesensitizeConfig) (fs : FsModel) (st : DState)
        (line : String) (ev : Option (String × String × String))
        (stats : List (String × Nat)),
        ingest_classify des fs st line = .ok (ev, stats) → stats = []) :=
  ⟨desensitize_line_stats, ingest_classify_stats⟩

/-- C7, witness: the amended statement instantiated on the masked-IP line. -/
theorem mask_stats_always_empty_witness :
    desensitize_line sampleCfg {} {} "src=1.2.3.4\n" =
      .ok ("src=<IP:0ab1e0cc58>\n",
           { map := [("1.2.3.4", "<IP:0ab1e0cc58>")] }, [])
    ∧ ([] : List (String × Nat)) = [] :=
  ⟨by decide,
   mask_stats_always_empty.1 sampleCfg {} {} "src=1.2.3.4"
     "src=<IP:0ab1e0cc58>" { map := [("1.2.3.4", "<IP:0ab1e0cc58>")] } []
     (by decide)⟩

/-! ### C8 — mapping-persistence failures -/

/-- C8: `os.makedirs` on the mapping path's directory sits outside
`_save_map`'s `try`, so its failure escapes `_map_value` and
`desensitize_line` raises on a line that introduces a new sensitive value,
instead of being swallowed as the specification demands (the
`open`/`json.dump` failure inside the `try` is swallowed). -/
theorem save_map_mkdir_failure_escapes :
    desensitize_line sampleCfg { mkdirFails := true } {} "src=1.2.3.4\n" =
      .error ()
    ∧ save_map { mkdirFails := true } = .error ()
    ∧ save_map { writeFails := true } = .ok () :=
  ⟨by decide, rfl, rfl⟩

/-! ### C9 — first-seen/last-seen invariant -/

/-- C9: `first_seen ≤ last_seen` is preserved by every `upsert_events`
batch; on creation the two are equal, and an update can only move
`first_seen` earlier and `last_seen` later. -/
theorem first_seen_le_last_seen_invariant :
    (∀ (st : InMemoryStore) (es : List Event),
        AggInv st → AggInv (upsert_events st es).1)
    ∧ (∀ (st : InMemoryStore) (e : Event) (fp : String) (r : AggRecord),
        pyDictGet st.agg fp = none →
        pyDictGet (upsert_one st e).agg fp = some r →
        r.first_seen = r.last_seen)
    ∧ (∀ (st : InMemoryStore) (e : Event) (fp : String) (r r2 : AggRecord),
        pyDictGet st.agg fp = some r →
        pyDictGet (upsert_one st e).agg fp = some r2 →
        r2.first_seen ≤ r.first_seen ∧ r.last_seen ≤ r2.last_seen) := by
  refine ⟨fun st es h => foldl_inv es st h, ?_, ?_⟩
  · intro st e fp r h1 h2
    rw [upsert_one_agg] at h2
    split_ifs at h2
    · rw [h1] at h2; exact absurd h2 (by simp)
    · rw [h1] at h2
      injection h2 with h2
      rw [← h2]
      rfl
    · rw [h1] at h2; exact absurd h2 (by simp)
  · intro st e fp r r2 h1 h2
    rw [upsert_one_agg] at h2
    split_ifs at h2
    · rw [h1] at h2; injection h2 with h2; rw [h2]
      exact ⟨le_refl _, le_refl _⟩
    · rw [h1] at h2
      injection h2 with h2
      have hf := aggStep_first e fp (some r)
      have hl := aggStep_last e fp (some r)
      dsimp only at hf hl
      rw [h2] at hf hl
      constructor
      · rw [hf]; exact min_le_left _ _
      · rw [hl]; exact le_max_left _ _
    · rw [h1] at h2; injection h2 with h2; rw [h2]
      exact ⟨le_refl _, le_refl _⟩

/-- C9, witness: the invariant holds after upserting two events (out of
timestamp order) into the empty store. -/
theorem first_seen_le_last_seen_invariant_witness :
    AggInv (upsert_events ({} : InMemoryStore) [evA, evB]).1 :=
  first_seen_le_last_seen_invariant.1 {} [evA, evB]
    (fun _ r h => Option.noConfusion h)

/-! ### C10 — the private-range exemption -/

/-- C10: with `keep_private_ranges` enabled, the `repl` decision of
`_mask_ip` leaves a freshly seen IPv4 match unchanged exactly when its text
starts with `10.`, `192.168.` or `172.` — so `172.32.0.1` (public) is
exempted while `169.254.10.9` (private link-local) is masked, as the
concrete scrub shows. -/
theorem private_range_exemption :
    (∀ (cfg : DesensitizeConfig) (fs : FsModel) (st : DState) (ip : String)
        (seg rest : List Char),
        cfg.keep_private_ranges = true → fs.mkdirFails = false →
        dictFind st.map ip = none →
        matchIPv4At ip.data = some (seg, rest) →
        ((∃ st2, ipRepl cfg fs st ip = .ok (ip, st2)) ↔
          (pyStartsWith ip "10." = true ∨ pyStartsWith ip "192.168." = true ∨
           pyStartsWith ip "172." = true)))
    ∧ desensitize_line keepCfg {} {} "src=172.32.0.1 dst=169.254.10.9\n" =
        .ok ("src=172.32.0.1 dst=<IP:f2cdf7fd2a>\n",
             { map := [("169.254.10.9", "<IP:f2cdf7fd2a>")] }, []) := by
  refine ⟨?_, by decide⟩
  intro cfg fs st ip seg rest hkeep hmkdir hfind hmatch
  constructor
  · rintro ⟨st2, hrep⟩
    by_cases hp : is_private_ip ip = true
    · have hp2 := hp
      simp only [is_private_ip, Bool.or_eq_true] at hp2
      tauto
    · exfalso
      simp only [ipRepl, hkeep, Bool.true_and, hp, Bool.false_eq_true,
        if_false] at hrep
      simp only [map_value, hfind, save_map, hmkdir, Bool.false_eq_true,
        if_false] at hrep
      simp only [Except.ok.injEq, Prod.mk.injEq] at hrep
      obtain ⟨c, cs2, hcs, hd⟩ := ipSegsMatch_head_digit 3 ip.data seg rest hmatch
      have hdata := congrArg String.data hrep.1
      rw [hcs, token_head_lt] at hdata
      simp only [List.cons.injEq] at hdata
      rw [← hdata.1] at hd
      exact absurd hd (by decide)
  · intro hp
    have hpriv : is_private_ip ip = true := by
      simp [is_private_ip, Bool.or_eq_true]
      tauto
    exact ⟨st, by simp [ipRepl, hkeep, hpriv]⟩

/-- C10, witness: the exemption decision instantiated on the public address
`172.32.0.1`, which the code keeps because of its `172.` prefix. -/
theorem private_range_exemption_witness :
    keepCfg.keep_private_ranges = true
    ∧ dictFind (DState.map {}) "172.32.0.1" = none
    ∧ matchIPv4At (String.data "172.32.0.1") =
        some (String.data "172.32.0.1", [])
    ∧ ∃ st2, ipRepl keepCfg {} {} "172.32.0.1" = .ok ("172.32.0.1", st2) :=
  ⟨rfl, by decide, by decide,
   (private_range_exemption.1 keepCfg {} {} "172.32.0.1"
       (String.data "172.32.0.1") [] rfl rfl (by decide) (by decide)).mpr
     (Or.inr (Or.inr (by decide)))⟩

end OpsCopilot
